import Mathlib

/-
  Shallow embedding of the nn-chess-frontend repository (src/chess.rs,
  src/requests.rs) for verifying its specification.

  The chess rules library (shakmaty) is external to the repository: it is
  embedded as an abstract `RulesProvider` record whose operations
  (legal_moves, play_unchecked, turn, is_checkmate, ...) are parameters.
  The egui rendering layer is not modelled; only the state mutations the
  click handlers perform are, since those are what the claims are about.
-/

namespace NNChess

/-- shakmaty `Color`. -/
inductive Color
  | white
  | black
deriving DecidableEq, Repr

/-- shakmaty `Color::other`. -/
def Color.other : Color → Color
  | .white => .black
  | .black => .white

/-- shakmaty `Role`. -/
inductive Role
  | pawn
  | knight
  | bishop
  | rook
  | queen
  | king
deriving DecidableEq, Repr

/-- shakmaty `Piece`: a colored role. -/
structure Piece where
  color : Color
  role : Role
deriving DecidableEq, Repr

/-- Board squares, indexed 0..63 as in shakmaty (a1 = 0, b1 = 1, ..., h8 = 63). -/
abbrev Square := Nat

/-- shakmaty `CastlingSide`. -/
inductive CastlingSide
  | kingSide
  | queenSide
deriving DecidableEq, Repr

/-- shakmaty `CastlingSide::king_to`: the square the king lands on when castling.
    g1 = 6, g8 = 62, c1 = 2, c8 = 58. -/
def CastlingSide.kingTo : CastlingSide → Color → Square
  | .kingSide, .white => 6
  | .kingSide, .black => 62
  | .queenSide, .white => 2
  | .queenSide, .black => 58

/-- shakmaty `CastlingSide::rook_to`: the square the rook lands on when castling.
    f1 = 5, f8 = 61, d1 = 3, d8 = 59. -/
def CastlingSide.rookTo : CastlingSide → Color → Square
  | .kingSide, .white => 5
  | .kingSide, .black => 61
  | .queenSide, .white => 3
  | .queenSide, .black => 59

/-- shakmaty `Move`.  `src` is the field shakmaty calls `from` (a Lean keyword);
    `dst` is the field shakmaty calls `to`.  For `castle`, `king` and `rook`
    are the starting squares of the two pieces (castling is encoded as
    king-takes-rook). -/
inductive Move
  | normal (role : Role) (src : Square) (dst : Square)
      (capture : Option Role) (promotion : Option Role)
  | enPassant (src dst : Square)
  | castle (king rook : Square)
  | put (role : Role) (dst : Square)
deriving DecidableEq, Repr

/-- shakmaty `Move::from`: the origin square, when there is one. -/
def Move.src? : Move → Option Square
  | .normal _ s _ _ _ => some s
  | .enPassant s _ => some s
  | .castle king _ => some king
  | .put _ _ => none

/-- shakmaty `Move::to`.  For a castling move this is the ROOK square, not
    the square the king lands on. -/
def Move.dst : Move → Square
  | .normal _ _ d _ _ => d
  | .enPassant _ d => d
  | .castle _ rook => rook
  | .put _ d => d

/-- shakmaty `Move::role`: the role of the moved piece. -/
def Move.role : Move → Role
  | .normal r _ _ _ _ => r
  | .enPassant _ _ => .pawn
  | .castle _ _ => .king
  | .put r _ => r

/-- shakmaty `Move::capture`. -/
def Move.capture : Move → Option Role
  | .normal _ _ _ c _ => c
  | .enPassant _ _ => some .pawn
  | .castle _ _ => none
  | .put _ _ => none

/-- shakmaty `Move::promotion`. -/
def Move.promotion : Move → Option Role
  | .normal _ _ _ _ p => p
  | _ => none

/-- shakmaty `Move::is_promotion`. -/
def Move.isPromotion (m : Move) : Bool := m.promotion.isSome

/-- shakmaty `Move::is_en_passant`. -/
def Move.isEnPassant : Move → Bool
  | .enPassant _ _ => true
  | _ => false

/-- shakmaty `Move::is_capture`. -/
def Move.isCapture (m : Move) : Bool := m.capture.isSome

/-- shakmaty `Move::is_castle`. -/
def Move.isCastle : Move → Bool
  | .castle _ _ => true
  | _ => false

def Move.isPut : Move → Bool
  | .put _ _ => true
  | _ => false

/-- The side on which a castling move castles: king side when the king square
    is below the rook square (shakmaty `Move::castling_side`). -/
def castleSide (king rook : Square) : CastlingSide :=
  if king < rook then .kingSide else .queenSide

/-- shakmaty `Move::castling_side`. -/
def Move.castlingSide : Move → Option CastlingSide
  | .castle king rook => some (castleSide king rook)
  | _ => none

/-- shakmaty `Outcome`. -/
inductive Outcome
  | decisive (winner : Color)
  | draw
deriving DecidableEq, Repr

/-- shakmaty `EnPassantMode`, the serialization convention selector passed to
    `Fen::from_position`. -/
inductive EnPassantMode
  | legal
  | always
deriving DecidableEq, Repr

/-- The external Rules Provider (the shakmaty library), abstracted over its
    opaque position type `Pos` (shakmaty `Chess`).  `fenFromPosition`
    collapses `Fen::from_position` followed by `to_string` into one map to
    the FEN string; `sanToMove` collapses
    `San::from_ascii(..).unwrap().to_move(..).unwrap()`. -/
structure RulesProvider (Pos : Type) where
  legalMoves : Pos → List Move
  playUnchecked : Pos → Move → Pos
  pieceAt : Pos → Square → Option Piece
  turn : Pos → Color
  isGameOver : Pos → Bool
  isCheckmate : Pos → Bool
  isStalemate : Pos → Bool
  isInsufficientMaterial : Pos → Bool
  outcome : Pos → Option Outcome
  startpos : Pos
  fenFromPosition : Pos → EnPassantMode → String
  sanToMove : String → Pos → Move

/-- web_types `EngineRef`. -/
structure EngineRef where
  engine_id : String
  name : String
  entrypoint_url : String
deriving DecidableEq, Repr

/-- web_types `EngineVariant`. -/
structure EngineVariant where
  name : String
  game_url : String
deriving DecidableEq, Repr

/-- web_types `EngineDirectory`. -/
structure EngineDirectory where
  engines : List EngineRef
deriving DecidableEq, Repr

/-- web_types `EngineDescription`. -/
structure EngineDescription where
  name : String
  text_description : String
  variants : List EngineVariant
  best_available_variant : EngineVariant
deriving DecidableEq, Repr

/-- web_types `GameMoveResponse`: the engine reply carrying a move in SAN,
    timing information (modelled opaquely) and a status string. -/
structure GameMoveResponse where
  move_san : String
  move_timing : Nat
  status_text : String
deriving DecidableEq, Repr

/-- chess.rs `PieceSelection`. -/
structure PieceSelection where
  piece : Piece
  position : Square
  legal_moves : List (Square × Move)
deriving DecidableEq, Repr

/-- chess.rs `PieceSelection::new`: keeps the legal moves that originate at
    `position` with the role of `piece`, and pairs each with its displayed
    destination square (for castling, the square the king lands on).  The
    `put` arm is `unreachable!()` in the source; it is mapped like a normal
    move here and excluded by hypothesis where it matters. -/
def PieceSelection.new {Pos : Type} (rp : RulesProvider Pos)
    (piece : Piece) (position : Square) (chess : Pos) : PieceSelection :=
  let retained := (rp.legalMoves chess).filter fun m =>
    m.src? == some position && m.role == piece.role
  let legal_moves := retained.map fun m =>
    match m with
    | .castle king rook => ((castleSide king rook).kingTo piece.color, m)
    | _ => (m.dst, m)
  { piece := piece, position := position, legal_moves := legal_moves }

/-- chess.rs `LastMove`: the two squares highlighted as the most recent move. -/
structure LastMove where
  a : Square
  b : Square
deriving DecidableEq, Repr

/-- egui `Pos2`, modelled opaquely (its f32 coordinates are only stored by
    the code paths modelled here, never computed with). -/
structure Pos2 where
  x : Int
  y : Int
deriving DecidableEq, Repr

/-- chess.rs `PromotionData`. -/
structure PromotionData where
  show_promotion_choice : Bool
  promotion_panel_anchor_pos : Pos2
  color : Option Color
  promotion_move : Option Move
deriving DecidableEq, Repr

/-- chess.rs `AiGameSettings`.  The tokio oneshot receiver is modelled as the
    channel id it was created with; the mpsc sender handle has no state of
    its own and requests travelling through it are returned as outputs of
    `update_ai_move` instead. -/
structure AiGameSettings where
  engine_move_receiver : Option Nat
  ai_variant : EngineVariant
deriving DecidableEq, Repr

/-- chess.rs `GameMode`. -/
inductive GameMode
  | playAgainsAI (settings : AiGameSettings)
  | playAgainsYourself
deriving DecidableEq, Repr

/-- The `PartialEq` implementation for `GameMode` in chess.rs: compares only
    the variant, ignoring the AI settings. -/
def GameMode.eqv : GameMode → GameMode → Bool
  | .playAgainsAI _, .playAgainsAI _ => true
  | .playAgainsAI _, .playAgainsYourself => false
  | .playAgainsYourself, .playAgainsAI _ => false
  | .playAgainsYourself, .playAgainsYourself => true

/-- chess.rs `ChessBoard`, over the opaque position type of the Rules
    Provider. -/
structure ChessBoard (Pos : Type) where
  chess : Pos
  player_color : Color
  game_mode : GameMode
  selection : Option PieceSelection
  last_move : Option LastMove
  last_ai_move : Option GameMoveResponse
  promotion : PromotionData
  game_is_going : Bool
  game_over_is_dismissed : Bool

/-- chess.rs `ChessBoard::default`. -/
def ChessBoard.mkDefault {Pos : Type} (rp : RulesProvider Pos) : ChessBoard Pos where
  chess := rp.startpos
  player_color := .white
  game_mode := .playAgainsYourself
  selection := none
  last_move := none
  last_ai_move := none
  promotion :=
    { show_promotion_choice := false
      promotion_panel_anchor_pos := ⟨0, 0⟩
      color := none
      promotion_move := none }
  game_is_going := false
  game_over_is_dismissed := false

/-- chess.rs `Termination`. -/
inductive Termination
  | checkmate (c : Color)
  | stalemate (c : Color)
  | insufficientMaterial
  | unknown (o : Outcome)
deriving DecidableEq, Repr

/-- chess.rs `Termination::outcome`. -/
def Termination.outcome : Termination → Outcome
  | .checkmate c => .decisive c.other
  | .stalemate _ => .draw
  | .insufficientMaterial => .draw
  | .unknown v => v

/-- chess.rs `ChessBoard::start_game`. -/
def ChessBoard.start_game {Pos : Type} (b : ChessBoard Pos) (rp : RulesProvider Pos) :
    ChessBoard Pos :=
  { b with
    chess := rp.startpos
    selection := none
    last_move := none
    last_ai_move := none
    game_is_going := true
    game_over_is_dismissed := false }

/-- chess.rs `ChessBoard::stop_game`. -/
def ChessBoard.stop_game {Pos : Type} (b : ChessBoard Pos) : ChessBoard Pos :=
  { b with
    promotion :=
      { b.promotion with
        show_promotion_choice := false
        promotion_move := none
        color := none }
    game_is_going := false }

/-- chess.rs `ChessBoard::get_termination`.  The trailing `?` on
    `self.chess.outcome()` makes the whole call return `None` when the last
    branch is reached with no outcome. -/
def ChessBoard.get_termination {Pos : Type} (b : ChessBoard Pos)
    (rp : RulesProvider Pos) : Option Termination :=
  if rp.isInsufficientMaterial b.chess then some .insufficientMaterial
  else if rp.isCheckmate b.chess then some (.checkmate (rp.turn b.chess))
  else if rp.isStalemate b.chess then some (.stalemate (rp.turn b.chess))
  else (rp.outcome b.chess).map .unknown

/-- The color read out of `self.selection.as_ref().unwrap().piece.color` in
    `play_move`; the `unwrap` on a missing selection (a panic in the source)
    is modelled as white. -/
def selectionColor : Option PieceSelection → Color
  | some s => s.piece.color
  | none => .white

/-- chess.rs `ChessBoard::play_move`: applies the move through the Rules
    Provider unchecked-apply, records LastMove (castling uses the king
    square and the king landing square), clears the selection, and stops
    the game when the resulting position is game over. -/
def ChessBoard.play_move {Pos : Type} (b : ChessBoard Pos) (rp : RulesProvider Pos)
    (m : Move) : ChessBoard Pos :=
  let chess := rp.playUnchecked b.chess m
  let lm : LastMove :=
    match m with
    | .castle king rook => ⟨king, (castleSide king rook).kingTo (selectionColor b.selection)⟩
    | _ => ⟨m.src?.getD 0, m.dst⟩
  let b1 := { b with chess := chess, last_move := some lm, selection := none }
  if rp.isGameOver chess then { b1 with game_is_going := false } else b1

/-- The pending engine reply receiver currently stored on the board, if any. -/
def ChessBoard.engine_receiver {Pos : Type} (b : ChessBoard Pos) : Option Nat :=
  match b.game_mode with
  | .playAgainsAI s => s.engine_move_receiver
  | .playAgainsYourself => none

/-- chess.rs `ChessBoard::is_waiting_for_ai_move`. -/
def ChessBoard.is_waiting_for_ai_move {Pos : Type} (b : ChessBoard Pos) : Bool :=
  match b.game_mode with
  | .playAgainsAI s => s.engine_move_receiver.isSome
  | .playAgainsYourself => false

/-- requests.rs `RequestLoopComm`.  The `oneshot::Sender` carried by each
    variant is modelled as the channel id of its receiver; the `Fen` payload
    is carried as its serialized string (the `Fen` value is opaque and only
    ever turned into a string by `get_position_evaluation`). -/
inductive RequestLoopComm
  | fetchEngines (chan : Nat)
  | fetchEngineDescription (engine : EngineRef) (chan : Nat)
  | fetchPosEval (variant : EngineVariant) (fen : String) (chan : Nat)
deriving DecidableEq, Repr

/-- The reply channel id a request carries. -/
def RequestLoopComm.chan : RequestLoopComm → Nat
  | .fetchEngines ch => ch
  | .fetchEngineDescription _ ch => ch
  | .fetchPosEval _ _ ch => ch

/-- HTTP request method. -/
inductive Method
  | get
  | post
deriving DecidableEq, Repr

/-- An outbound HTTP call as issued by requests.rs: method, URL, and the
    JSON object body when there is one (a flat object of string fields,
    which is all the source ever sends). -/
structure HttpCall where
  method : Method
  url : String
  body : Option (List (String × String))
deriving DecidableEq, Repr

/-- web_types `GameMoveRequest`: the POST body of a position evaluation. -/
structure GameMoveRequest where
  fen : String
deriving DecidableEq, Repr

/-- The serde JSON serialization of `GameMoveRequest`: one field named
    `fen` holding the FEN string. -/
def GameMoveRequest.toJson (r : GameMoveRequest) : List (String × String) :=
  [("fen", r.fen)]

/-- requests.rs `get_engines`: a GET of the fixed directory endpoint. -/
def get_engines_call : HttpCall :=
  ⟨.get, "https://api.unchessful.games/", none⟩

/-- requests.rs `get_engine_description`: a GET of the engine entrypoint. -/
def get_engine_description_call (e : EngineRef) : HttpCall :=
  ⟨.get, e.entrypoint_url, none⟩

/-- requests.rs `get_position_evaluation`: a POST of the serialized
    `GameMoveRequest { fen }` to the variant game URL. -/
def get_position_evaluation_call (v : EngineVariant) (fen : String) : HttpCall :=
  ⟨.post, v.game_url, some (GameMoveRequest.toJson ⟨fen⟩)⟩

/-- The single HTTP call a request gives rise to. -/
def RequestLoopComm.call : RequestLoopComm → HttpCall
  | .fetchEngines _ => get_engines_call
  | .fetchEngineDescription e _ => get_engine_description_call e
  | .fetchPosEval v fen _ => get_position_evaluation_call v fen

/-- The network environment: the decoded-or-failed outcome of each of the
    three HTTP helpers of requests.rs (`anyhow::Result` is `Except String`). -/
structure HttpEnv where
  engines : Except String EngineDirectory
  description : EngineRef → Except String EngineDescription
  pos_eval : EngineVariant → String → Except String GameMoveResponse

deriving instance DecidableEq for Except

/-- A value sent down a one-shot reply channel by the request loop. -/
inductive ReplyValue
  | engines (r : Except String EngineDirectory)
  | description (r : Except String EngineDescription)
  | pos_eval (r : Except String GameMoveResponse)
deriving DecidableEq, Repr

/-- What the request loop does for one received request: the one HTTP call
    it performs, the reply channel it answers on, and the value it sends. -/
structure LoopEvent where
  call : HttpCall
  reply_chan : Nat
  reply : ReplyValue
deriving DecidableEq, Repr

/-- The body of the `while let Some(comm) = request_receiver.recv().await`
    loop in requests.rs `run_request_loop`, for one request: performs the
    single matching HTTP call and sends the result (or the error) on the
    request own one-shot channel. -/
def processComm (env : HttpEnv) : RequestLoopComm → LoopEvent
  | .fetchEngines ch =>
      ⟨get_engines_call, ch, .engines env.engines⟩
  | .fetchEngineDescription e ch =>
      ⟨get_engine_description_call e, ch, .description (env.description e)⟩
  | .fetchPosEval v fen ch =>
      ⟨get_position_evaluation_call v fen, ch, .pos_eval (env.pos_eval v fen)⟩

/-- requests.rs `run_request_loop`: the queued requests, in arrival order
    up to the closing of the queue, are served one after the other; the
    produced events are in processing order. -/
def run_request_loop (env : HttpEnv) : List RequestLoopComm → List LoopEvent
  | [] => []
  | c :: cs => processComm env c :: run_request_loop env cs

/-- The outcome of `move_receiver.try_recv()` on the stored oneshot
    receiver: `ok m` is `Ok(Ok(m))`; `failed` is `Ok(Err(_))` (the request
    failed); `notReady` is `Err(_)` (nothing received yet, or closed). -/
inductive TryRecvOutcome
  | ok (m : GameMoveResponse)
  | failed
  | notReady
deriving DecidableEq, Repr

/-- chess.rs `ChessBoard::update_ai_move`.  `poll` is what `try_recv` on the
    stored receiver would return this frame; `freshChan` is the id of the
    oneshot channel created when a new request is issued.  Returns the new
    board and the request pushed onto the dispatcher queue, if any.  The
    source only acts on `Ok(Ok(m))`; on every other poll outcome it does
    nothing and in particular keeps the stored receiver. -/
def ChessBoard.update_ai_move {Pos : Type} (b : ChessBoard Pos)
    (rp : RulesProvider Pos) (poll : TryRecvOutcome) (freshChan : Nat) :
    ChessBoard Pos × Option RequestLoopComm :=
  if rp.turn b.chess == b.player_color
      || b.game_mode.eqv .playAgainsYourself
      || !b.game_is_going then
    (b, none)
  else
    match b.game_mode with
    | .playAgainsYourself => (b, none)
    | .playAgainsAI s =>
      match s.engine_move_receiver with
      | some _ =>
        match poll with
        | .ok m =>
          let b1 := { b with game_mode := .playAgainsAI { s with engine_move_receiver := none } }
          let b2 := b1.play_move rp (rp.sanToMove m.move_san b1.chess)
          ({ b2 with last_ai_move := some m }, none)
        | _ => (b, none)
      | none =>
        let fen := rp.fenFromPosition b.chess .legal
        ({ b with game_mode := .playAgainsAI { s with engine_move_receiver := some freshChan } },
         some (.fetchPosEval s.ai_variant fen freshChan))

/-- The board built by the successful-reply branch of `update_ai_move`:
    receiver dropped, the SAN move decoded against the current position and
    played, and the reply recorded as the last AI move. -/
def aiApplyBoard {Pos : Type} (rp : RulesProvider Pos) (b : ChessBoard Pos)
    (s : AiGameSettings) (m : GameMoveResponse) : ChessBoard Pos :=
  let b1 := { b with game_mode := .playAgainsAI { s with engine_move_receiver := none } }
  let b2 := b1.play_move rp (rp.sanToMove m.move_san b1.chess)
  { b2 with last_ai_move := some m }

/-- The guard at the top of `update_ai_move`: nothing happens when it is the
    player turn, the mode is self-play, or the game is not running. -/
def ChessBoard.ai_guard {Pos : Type} (b : ChessBoard Pos) (rp : RulesProvider Pos) : Bool :=
  rp.turn b.chess == b.player_color
    || b.game_mode.eqv .playAgainsYourself
    || !b.game_is_going

/-- Iterates `update_ai_move` over a sequence of frames, collecting every
    request it pushes onto the dispatcher queue. -/
def run_ai_updates {Pos : Type} (rp : RulesProvider Pos) :
    ChessBoard Pos → List (TryRecvOutcome × Nat) → ChessBoard Pos × List RequestLoopComm
  | b, [] => (b, [])
  | b, (poll, ch) :: rest =>
    let step := b.update_ai_move rp poll ch
    let tail := run_ai_updates rp step.1 rest
    (tail.1, step.2.toList ++ tail.2)

/-- The move branch of the click handler in chess.rs `draw_square` (the part
    after the own-piece check): looks the clicked square up among the
    selection displayed destinations; a promotion move opens the promotion
    prompt instead of playing, any other found move is played, and a miss
    clears the selection. -/
def ChessBoard.click_move_branch {Pos : Type} (b : ChessBoard Pos)
    (rp : RulesProvider Pos) (square : Square) : ChessBoard Pos :=
  match b.selection with
  | none => { b with selection := none }
  | some sel =>
    match sel.legal_moves.find? (fun v => v.1 == square) with
    | some pair =>
      let m := pair.2
      if m.isPromotion then
        { b with
          promotion :=
            { b.promotion with
              show_promotion_choice := true
              color := some sel.piece.color
              promotion_move := some m } }
      else
        b.play_move rp m
    | none => { b with selection := none }

/-- The click handling in chess.rs `draw_square`: clicks only register while
    the game is going and the promotion prompt is closed; a click on an own
    piece of the side to move (when that side may be moved) replaces the
    selection, anything else falls through to the move branch. -/
def ChessBoard.draw_square_click {Pos : Type} (b : ChessBoard Pos)
    (rp : RulesProvider Pos) (square : Square) : ChessBoard Pos :=
  if b.game_is_going && !b.promotion.show_promotion_choice then
    match rp.pieceAt b.chess square with
    | some piece =>
      if rp.turn b.chess == piece.color
          && (b.player_color == piece.color || b.game_mode.eqv .playAgainsYourself) then
        { b with selection := some (PieceSelection.new rp piece square b.chess) }
      else
        b.click_move_branch rp square
    | none => b.click_move_branch rp square
  else
    b

/-- Whether the own-piece branch of `draw_square` fires for this click. -/
def ChessBoard.click_selects_own_piece {Pos : Type} (b : ChessBoard Pos)
    (rp : RulesProvider Pos) (square : Square) : Bool :=
  match rp.pieceAt b.chess square with
  | some piece =>
      rp.turn b.chess == piece.color
        && (b.player_color == piece.color || b.game_mode.eqv .playAgainsYourself)
  | none => false

/-- The effect of clicking one of the four role buttons in chess.rs
    `show_promotion_selection_modal`: closes the prompt, then, when a
    pending promotion move is stored, rebuilds it as a normal move with the
    chosen promotion role and plays it.  The stored pending move and color
    are not cleared here. -/
def ChessBoard.choose_promotion_role {Pos : Type} (b : ChessBoard Pos)
    (rp : RulesProvider Pos) (role : Role) : ChessBoard Pos :=
  let b1 := { b with promotion := { b.promotion with show_promotion_choice := false } }
  match b1.promotion.promotion_move with
  | some m => b1.play_move rp (.normal m.role (m.src?.getD 0) m.dst m.capture (some role))
  | none => b1

/-- The LastMove recorded for a move by the older app.rs `show_board`
    snapshot: for a castling move, the pair of the king landing square and
    the rook landing square (`s.king_to`, `s.rook_to`); otherwise
    (origin, destination).  The `unwrap` on a castle with no side cannot
    fire since `castlingSide` is total on castles. -/
def show_board_last_move (m : Move) (c : Color) : LastMove :=
  if m.isCastle then
    match m.castlingSide with
    | some side => ⟨side.kingTo c, side.rookTo c⟩
    | none => ⟨m.src?.getD 0, m.dst⟩
  else
    ⟨m.src?.getD 0, m.dst⟩

/-
  Concrete instances, used to evaluate the theorems on explicit inputs.
  The chess rules live outside the repository, so any Rules Provider
  instance exercises the glue code equally well.
-/

/-- A small concrete Rules Provider over `Nat` positions.  Position `p`
    advances by one on every applied move; white moves on even positions.
    A white king stands on square 4 (e1); the legal moves are a king-side
    castle and a pawn push. -/
def toyRules : RulesProvider Nat where
  legalMoves := fun _ => [.castle 4 7, .normal .pawn 12 28 none none]
  playUnchecked := fun p _ => p + 1
  pieceAt := fun _ sq => if sq = 4 then some ⟨.white, .king⟩ else none
  turn := fun p => if p % 2 = 0 then .white else .black
  isGameOver := fun _ => false
  isCheckmate := fun _ => false
  isStalemate := fun _ => false
  isInsufficientMaterial := fun _ => false
  outcome := fun _ => none
  startpos := 0
  fenFromPosition := fun p _ => "pos" ++ toString p
  sanToMove := fun _ _ => .normal .pawn 12 28 none none

/-- A Rules Provider in which the position reached after one move (from
    position 0) is checkmate: position 1 is game over, checkmate, with
    black to move. -/
def toyMateRules : RulesProvider Nat where
  legalMoves := fun _ => [.normal .queen 3 59 none none]
  playUnchecked := fun p _ => p + 1
  pieceAt := fun _ _ => none
  turn := fun p => if p % 2 = 0 then .white else .black
  isGameOver := fun p => p = 1
  isCheckmate := fun p => p = 1
  isStalemate := fun _ => false
  isInsufficientMaterial := fun _ => false
  outcome := fun p => if p = 1 then some (.decisive .white) else none
  startpos := 0
  fenFromPosition := fun p _ => "pos" ++ toString p
  sanToMove := fun _ _ => .normal .queen 3 59 none none

/-- The default promotion prompt state: closed, nothing pending. -/
def noPromotion : PromotionData :=
  { show_promotion_choice := false
    promotion_panel_anchor_pos := ⟨0, 0⟩
    color := none
    promotion_move := none }

/-- A selection of the white king on e1 whose one destination is the
    king-side castle displayed on g1. -/
def selKing : PieceSelection :=
  { piece := ⟨.white, .king⟩
    position := 4
    legal_moves := [(6, .castle 4 7)] }

/-- A selection of a white pawn on e2 whose one destination is e4. -/
def selPawn : PieceSelection :=
  { piece := ⟨.white, .pawn⟩
    position := 12
    legal_moves := [(28, .normal .pawn 12 28 none none)] }

/-- A selection of a white pawn on e7 whose destinations are the four
    promotion moves to e8. -/
def selPromoPawn : PieceSelection :=
  { piece := ⟨.white, .pawn⟩
    position := 52
    legal_moves :=
      [(60, .normal .pawn 52 60 none (some .queen)),
       (60, .normal .pawn 52 60 none (some .rook)),
       (60, .normal .pawn 52 60 none (some .bishop)),
       (60, .normal .pawn 52 60 none (some .knight))] }

/-- A running self-play board at position 0 with a given selection. -/
def boardWith (sel : Option PieceSelection) : ChessBoard Nat :=
  { chess := 0
    player_color := .white
    game_mode := .playAgainsYourself
    selection := sel
    last_move := none
    last_ai_move := none
    promotion := noPromotion
    game_is_going := true
    game_over_is_dismissed := false }

/-- Board used against the castling highlight claim: the white king on e1
    is selected and about to castle king side. -/
def cexBoard : ChessBoard Nat := boardWith (some selKing)

/-- An engine variant of the remote service. -/
def variantA : EngineVariant := ⟨"v1", "https://engine.example/game"⟩

/-- A running AI-mode board (black engine to move at position 1) with a
    pending reply receiver on channel 5. -/
def aiPendingBoard : ChessBoard Nat :=
  { chess := 1
    player_color := .white
    game_mode := .playAgainsAI ⟨some 5, variantA⟩
    selection := none
    last_move := none
    last_ai_move := none
    promotion := noPromotion
    game_is_going := true
    game_over_is_dismissed := false }

/-- A running AI-mode board (black engine to move at position 1) with no
    pending reply receiver. -/
def aiIdleBoard : ChessBoard Nat :=
  { aiPendingBoard with game_mode := .playAgainsAI ⟨none, variantA⟩ }

/-- A running board one move away from checkmate under `toyMateRules`. -/
def mateBoard : ChessBoard Nat := boardWith (some selPawn)

/-- An environment in which every HTTP call fails. -/
def offlineEnv : HttpEnv :=
  { engines := .error "offline"
    description := fun _ => .error "offline"
    pos_eval := fun _ _ => .error "offline" }

/-
  Helper lemmas about `play_move` and the request loop, shared by the claim
  theorems below.
-/

theorem play_move_chess_eq {Pos : Type} (b : ChessBoard Pos) (rp : RulesProvider Pos)
    (m : Move) : (b.play_move rp m).chess = rp.playUnchecked b.chess m := by
  unfold ChessBoard.play_move
  dsimp only
  split <;> rfl

theorem play_move_selection_eq {Pos : Type} (b : ChessBoard Pos) (rp : RulesProvider Pos)
    (m : Move) : (b.play_move rp m).selection = none := by
  unfold ChessBoard.play_move
  dsimp only
  split <;> rfl

theorem play_move_game_mode_eq {Pos : Type} (b : ChessBoard Pos) (rp : RulesProvider Pos)
    (m : Move) : (b.play_move rp m).game_mode = b.game_mode := by
  unfold ChessBoard.play_move
  dsimp only
  split <;> rfl

theorem play_move_last_move_eq {Pos : Type} (b : ChessBoard Pos) (rp : RulesProvider Pos)
    (m : Move) :
    (b.play_move rp m).last_move = some
      (match m with
       | .castle king rook =>
           ⟨king, (castleSide king rook).kingTo (selectionColor b.selection)⟩
       | _ => ⟨m.src?.getD 0, m.dst⟩) := by
  unfold ChessBoard.play_move
  dsimp only
  split <;> rfl

theorem play_move_going_eq {Pos : Type} (b : ChessBoard Pos) (rp : RulesProvider Pos)
    (m : Move) :
    (b.play_move rp m).game_is_going =
      (if rp.isGameOver (rp.playUnchecked b.chess m) then false else b.game_is_going) := by
  unfold ChessBoard.play_move
  dsimp only
  split <;> simp_all

/-- C10: start_game resets the position to the initial one, clears the
    selection, the last-move highlight and the last AI move record and marks
    the game running, while leaving the whole promotion prompt untouched;
    stop_game is the operation that clears the prompt (and stops the game). -/
theorem start_game_leaves_promotion_prompt {Pos : Type} (rp : RulesProvider Pos)
    (b : ChessBoard Pos) :
    (b.start_game rp).chess = rp.startpos ∧
    (b.start_game rp).selection = none ∧
    (b.start_game rp).last_move = none ∧
    (b.start_game rp).last_ai_move = none ∧
    (b.start_game rp).game_is_going = true ∧
    (b.start_game rp).promotion = b.promotion ∧
    b.stop_game.promotion.show_promotion_choice = false ∧
    b.stop_game.promotion.promotion_move = none ∧
    b.stop_game.promotion.color = none ∧
    b.stop_game.game_is_going = false :=
  ⟨rfl, rfl, rfl, rfl, rfl, rfl, rfl, rfl, rfl, rfl⟩

/-- C4 (amended): after a move played through play_move, LastMove is
    (origin, destination) for normal and en-passant moves; for a castling
    move it is the pair of the king starting square and the king landing
    square (not the rook landing square). -/
theorem play_move_records_last_move {Pos : Type} (rp : RulesProvider Pos)
    (b : ChessBoard Pos) (sel : PieceSelection) (hsel : b.selection = some sel)
    (m : Move) :
    (∀ r s d cap pr, m = .normal r s d cap pr →
        (b.play_move rp m).last_move = some ⟨s, d⟩) ∧
    (∀ s d, m = .enPassant s d →
        (b.play_move rp m).last_move = some ⟨s, d⟩) ∧
    (∀ king rook, m = .castle king rook →
        (b.play_move rp m).last_move =
          some ⟨king, (castleSide king rook).kingTo sel.piece.color⟩) := by
  refine ⟨?_, ?_, ?_⟩
  · rintro r s d cap pr rfl
    rw [play_move_last_move_eq]
    rfl
  · rintro s d rfl
    rw [play_move_last_move_eq]
    rfl
  · rintro king rook rfl
    rw [play_move_last_move_eq, hsel]
    rfl

/-- C4 witness: with the white king on e1 selected, castling king side
    (king e1 = 4, rook h1 = 7) records LastMove (4, 6): e1 and the king
    landing square g1. -/
theorem play_move_records_last_move_witness :
    (cexBoard.play_move toyRules (.castle 4 7)).last_move = some ⟨4, 6⟩ := by
  have h := (play_move_records_last_move toyRules cexBoard selKing rfl
    (.castle 4 7)).2.2 4 7 rfl
  simpa using h

/-- C4 counterexample: for the same castling move (king e1 = 4, rook
    h1 = 7), play_move records (4, 6), which differs from (4, 5), the
    (king square, rook landing square) pair the claim asserts; the older
    app.rs snapshot records (6, 5), which differs from it as well. -/
theorem play_move_castle_highlight_cex :
    (cexBoard.play_move toyRules (.castle 4 7)).last_move = some ⟨4, 6⟩ ∧
    (cexBoard.play_move toyRules (.castle 4 7)).last_move ≠
      some ⟨4, CastlingSide.rookTo (castleSide 4 7) .white⟩ ∧
    show_board_last_move (.castle 4 7) .white = ⟨6, 5⟩ ∧
    show_board_last_move (.castle 4 7) .white ≠
      ⟨4, CastlingSide.rookTo (castleSide 4 7) .white⟩ := by
  refine ⟨by decide, by decide, by decide, by decide⟩

/-- C1: selecting a piece of the side to move yields a legal-destination
    list equal to the Rules Provider full legal-move list filtered to the
    moves originating at that square with the role of the piece, each move
    paired with its destination square, where a castling move is paired
    with the square the king lands on rather than the move target (the rook
    square). -/
theorem pieceSelection_matches_filtered_legal_moves {Pos : Type}
    (rp : RulesProvider Pos) (chess : Pos) (piece : Piece) (square : Square)
    (hocc : rp.pieceAt chess square = some piece)
    (hturn : rp.turn chess = piece.color)
    (hnoput : ∀ m ∈ rp.legalMoves chess, m.isPut = false) :
    (PieceSelection.new rp piece square chess).legal_moves =
      ((rp.legalMoves chess).filter fun m =>
          m.src? == some square && m.role == piece.role).map fun m =>
        ((match m.castlingSide with
          | some side => side.kingTo piece.color
          | none => m.dst), m) := by
  unfold PieceSelection.new
  dsimp only
  refine List.map_congr_left ?_
  intro m _
  cases m <;> rfl

/-- C1 witness: under `toyRules`, selecting the white king on e1 (with white
    to move at position 0) keeps exactly the castle move and displays it on
    g1, matching the filtered-and-mapped legal move list. -/
theorem pieceSelection_matches_filtered_legal_moves_witness :
    toyRules.pieceAt 0 4 = some ⟨.white, .king⟩ ∧
    toyRules.turn 0 = Color.white ∧
    (PieceSelection.new toyRules ⟨.white, .king⟩ 4 0).legal_moves =
      ((toyRules.legalMoves 0).filter fun m =>
          m.src? == some 4 && m.role == Role.king).map fun m =>
        ((match m.castlingSide with
          | some side => side.kingTo Color.white
          | none => m.dst), m) :=
  ⟨by decide, by decide,
    pieceSelection_matches_filtered_legal_moves toyRules 0 ⟨.white, .king⟩ 4
      (by decide) (by decide) (by decide)⟩

theorem draw_square_click_to_move_branch {Pos : Type} (rp : RulesProvider Pos)
    (b : ChessBoard Pos) (square : Square)
    (hgoing : b.game_is_going = true)
    (hprompt : b.promotion.show_promotion_choice = false)
    (hown : b.click_selects_own_piece rp square = false) :
    b.draw_square_click rp square = b.click_move_branch rp square := by
  unfold ChessBoard.draw_square_click
  unfold ChessBoard.click_selects_own_piece at hown
  rw [hgoing, hprompt]
  simp only [Bool.not_false, Bool.and_self, if_true]
  cases h : rp.pieceAt b.chess square with
  | none => rfl
  | some piece =>
    rw [h] at hown
    dsimp only at hown
    simp only [hown, Bool.false_eq_true, if_false]

theorem click_move_branch_plays {Pos : Type} (rp : RulesProvider Pos)
    (b : ChessBoard Pos) (sel : PieceSelection) (square : Square) (m : Move)
    (hsel : b.selection = some sel)
    (hfind : sel.legal_moves.find? (fun v => v.1 == square) = some (square, m))
    (hnp : m.isPromotion = false) :
    b.click_move_branch rp square = b.play_move rp m := by
  unfold ChessBoard.click_move_branch
  rw [hsel]
  dsimp only
  rw [hfind]
  simp [hnp]

theorem click_move_branch_promotion {Pos : Type} (rp : RulesProvider Pos)
    (b : ChessBoard Pos) (sel : PieceSelection) (square : Square) (m : Move)
    (hsel : b.selection = some sel)
    (hfind : sel.legal_moves.find? (fun v => v.1 == square) = some (square, m))
    (hp : m.isPromotion = true) :
    b.click_move_branch rp square =
      { b with
        promotion :=
          { b.promotion with
            show_promotion_choice := true
            color := some sel.piece.color
            promotion_move := some m } } := by
  unfold ChessBoard.click_move_branch
  rw [hsel]
  dsimp only
  rw [hfind]
  simp [hp, hsel]

/-- C2: with an active selection, clicking a destination square of the
    selection whose associated move is not a promotion results in the
    position obtained by handing exactly that move to the Rules Provider
    unchecked-apply, with the selection cleared. -/
theorem click_destination_plays_selected_move {Pos : Type} (rp : RulesProvider Pos)
    (b : ChessBoard Pos) (sel : PieceSelection) (square : Square) (m : Move)
    (hsel : b.selection = some sel)
    (hgoing : b.game_is_going = true)
    (hprompt : b.promotion.show_promotion_choice = false)
    (hown : b.click_selects_own_piece rp square = false)
    (hfind : sel.legal_moves.find? (fun v => v.1 == square) = some (square, m))
    (hnp : m.isPromotion = false) :
    (b.draw_square_click rp square).chess = rp.playUnchecked b.chess m ∧
    (b.draw_square_click rp square).selection = none := by
  rw [draw_square_click_to_move_branch rp b square hgoing hprompt hown,
    click_move_branch_plays rp b sel square m hsel hfind hnp]
  exact ⟨play_move_chess_eq b rp m, play_move_selection_eq b rp m⟩

/-- C2 witness: on the concrete self-play board with the white pawn on e2
    selected, clicking e4 (square 28) advances the toy position from 0 to 1
    (the unchecked-apply of that move) and clears the selection. -/
theorem click_destination_plays_selected_move_witness :
    ((boardWith (some selPawn)).draw_square_click toyRules 28).chess = 1 ∧
    ((boardWith (some selPawn)).draw_square_click toyRules 28).selection = none :=
  click_destination_plays_selected_move toyRules (boardWith (some selPawn))
    selPawn 28 (.normal .pawn 12 28 none none)
    (by decide) (by decide) (by decide) (by decide) (by decide) (by decide)

/-- C3: clicking a destination whose associated move is a pawn promotion
    never applies the move: the position is unchanged and the promotion
    prompt opens, storing the mover color and the pending move; choosing
    any promotion role afterwards produces the position of directly playing
    the fully specified promotion move (same role, origin, destination and
    capture, with the chosen role). -/
theorem promotion_via_pending_state {Pos : Type} (rp : RulesProvider Pos)
    (b : ChessBoard Pos) (sel : PieceSelection) (square : Square)
    (r : Role) (s d : Square) (cap : Option Role) (p : Role)
    (hsel : b.selection = some sel)
    (hgoing : b.game_is_going = true)
    (hprompt : b.promotion.show_promotion_choice = false)
    (hown : b.click_selects_own_piece rp square = false)
    (hfind : sel.legal_moves.find? (fun v => v.1 == square) =
      some (square, .normal r s d cap (some p))) :
    (b.draw_square_click rp square).chess = b.chess ∧
    (b.draw_square_click rp square).promotion.show_promotion_choice = true ∧
    (b.draw_square_click rp square).promotion.color = some sel.piece.color ∧
    (b.draw_square_click rp square).promotion.promotion_move =
      some (.normal r s d cap (some p)) ∧
    ∀ role : Role,
      ((b.draw_square_click rp square).choose_promotion_role rp role).chess =
        rp.playUnchecked b.chess (.normal r s d cap (some role)) := by
  rw [draw_square_click_to_move_branch rp b square hgoing hprompt hown,
    click_move_branch_promotion rp b sel square (.normal r s d cap (some p))
      hsel hfind (by rfl)]
  refine ⟨rfl, rfl, rfl, rfl, ?_⟩
  intro role
  unfold ChessBoard.choose_promotion_role
  dsimp only
  rw [play_move_chess_eq]
  rfl

/-- C3 witness: on the concrete board with the white e7 pawn selected,
    clicking e8 (square 60) leaves the position at 0, opens the prompt with
    the pending queen-promotion move stored, and choosing the knight then
    yields the position of playing the knight promotion directly. -/
theorem promotion_via_pending_state_witness :
    ((boardWith (some selPromoPawn)).draw_square_click toyRules 60).chess = 0 ∧
    ((boardWith (some selPromoPawn)).draw_square_click toyRules 60).promotion.promotion_move =
      some (.normal .pawn 52 60 none (some .queen)) ∧
    (((boardWith (some selPromoPawn)).draw_square_click toyRules 60).choose_promotion_role
        toyRules .knight).chess = 1 := by
  have h := promotion_via_pending_state toyRules (boardWith (some selPromoPawn))
    selPromoPawn 60 .pawn 52 60 none .queen
    (by decide) (by decide) (by decide) (by decide) (by decide)
  exact ⟨h.1, h.2.2.2.1, h.2.2.2.2 .knight⟩

/-- C5: after a move applied while the game was running, the running flag
    turns false exactly when the Rules Provider reports the resulting
    position as game over; in particular a mating move (checkmate, which is
    game over and not an insufficient-material position) stops the game and
    get_termination then reports checkmate of the side to move in the
    resulting position, the loser. -/
theorem play_move_stops_game_iff_terminal {Pos : Type} (rp : RulesProvider Pos)
    (b : ChessBoard Pos) (m : Move) (hgoing : b.game_is_going = true) :
    ((b.play_move rp m).game_is_going = false ↔
      rp.isGameOver (rp.playUnchecked b.chess m) = true) ∧
    (rp.isGameOver (rp.playUnchecked b.chess m) = true →
     rp.isCheckmate (rp.playUnchecked b.chess m) = true →
     rp.isInsufficientMaterial (rp.playUnchecked b.chess m) = false →
     (b.play_move rp m).game_is_going = false ∧
     (b.play_move rp m).get_termination rp =
       some (.checkmate (rp.turn (rp.playUnchecked b.chess m)))) := by
  have hchess := play_move_chess_eq b rp m
  have hgo := play_move_going_eq b rp m
  constructor
  · rw [hgo, hgoing]
    by_cases h : rp.isGameOver (rp.playUnchecked b.chess m) = true
    · simp [h]
    · simp [h]
  · intro hover hmate hmat
    constructor
    · rw [hgo, hover]
      rfl
    · unfold ChessBoard.get_termination
      rw [hchess, hmat, hmate]
      simp

/-- C5 witness: under `toyMateRules`, playing the mating queen move from the
    running board at position 0 stops the game and yields
    Checkmate(black), black being to move in the mated position 1. -/
theorem play_move_stops_game_iff_terminal_witness :
    (mateBoard.play_move toyMateRules (.normal .queen 3 59 none none)).game_is_going = false ∧
    (mateBoard.play_move toyMateRules (.normal .queen 3 59 none none)).get_termination
      toyMateRules = some (.checkmate .black) := by
  have h := (play_move_stops_game_iff_terminal toyMateRules mateBoard
    (.normal .queen 3 59 none none) (by decide)).2 (by decide) (by decide) (by decide)
  simpa using h

theorem engine_receiver_ai {Pos : Type} (b : ChessBoard Pos) (s : AiGameSettings)
    (hmode : b.game_mode = .playAgainsAI s) :
    b.engine_receiver = s.engine_move_receiver := by
  unfold ChessBoard.engine_receiver
  rw [hmode]

theorem update_ai_move_guard_eq {Pos : Type} (rp : RulesProvider Pos) (b : ChessBoard Pos)
    (poll : TryRecvOutcome) (ch : Nat) (hg : b.ai_guard rp = true) :
    b.update_ai_move rp poll ch = (b, none) := by
  unfold ChessBoard.ai_guard at hg
  unfold ChessBoard.update_ai_move
  rw [hg]
  rfl

theorem guard_false_mode_ai {Pos : Type} (rp : RulesProvider Pos) (b : ChessBoard Pos)
    (hg : b.ai_guard rp = false) : ∃ s, b.game_mode = .playAgainsAI s := by
  unfold ChessBoard.ai_guard at hg
  cases hmode : b.game_mode with
  | playAgainsAI s => exact ⟨s, rfl⟩
  | playAgainsYourself =>
    rw [hmode] at hg
    simp [GameMode.eqv] at hg

theorem update_ai_move_recv_ok_eq {Pos : Type} (rp : RulesProvider Pos) (b : ChessBoard Pos)
    (s : AiGameSettings) (c0 : Nat) (m : GameMoveResponse) (ch : Nat)
    (hg : b.ai_guard rp = false) (hmode : b.game_mode = .playAgainsAI s)
    (hrecv : s.engine_move_receiver = some c0) :
    b.update_ai_move rp (.ok m) ch = (aiApplyBoard rp b s m, none) := by
  unfold ChessBoard.ai_guard at hg
  unfold ChessBoard.update_ai_move
  rw [hg, hmode]
  dsimp only
  rw [hrecv]
  rfl

theorem update_ai_move_recv_pending_eq {Pos : Type} (rp : RulesProvider Pos)
    (b : ChessBoard Pos) (s : AiGameSettings) (c0 : Nat) (poll : TryRecvOutcome) (ch : Nat)
    (hg : b.ai_guard rp = false) (hmode : b.game_mode = .playAgainsAI s)
    (hrecv : s.engine_move_receiver = some c0)
    (hpoll : ∀ m, poll ≠ TryRecvOutcome.ok m) :
    b.update_ai_move rp poll ch = (b, none) := by
  unfold ChessBoard.ai_guard at hg
  unfold ChessBoard.update_ai_move
  rw [hg, hmode]
  dsimp only
  rw [hrecv]
  cases poll with
  | ok m => exact absurd rfl (hpoll m)
  | failed => rfl
  | notReady => rfl

theorem update_ai_move_idle_eq {Pos : Type} (rp : RulesProvider Pos) (b : ChessBoard Pos)
    (s : AiGameSettings) (poll : TryRecvOutcome) (ch : Nat)
    (hg : b.ai_guard rp = false) (hmode : b.game_mode = .playAgainsAI s)
    (hrecv : s.engine_move_receiver = none) :
    b.update_ai_move rp poll ch =
      ({ b with game_mode := .playAgainsAI { s with engine_move_receiver := some ch } },
       some (.fetchPosEval s.ai_variant (rp.fenFromPosition b.chess .legal) ch)) := by
  unfold ChessBoard.ai_guard at hg
  unfold ChessBoard.update_ai_move
  rw [hg, hmode]
  dsimp only
  rw [hrecv]
  rfl

theorem update_ai_move_stall {Pos : Type} (rp : RulesProvider Pos) (b : ChessBoard Pos)
    (c : Nat) (hpend : b.engine_receiver = some c) (poll : TryRecvOutcome)
    (hpoll : ∀ m, poll ≠ TryRecvOutcome.ok m) (ch : Nat) :
    b.update_ai_move rp poll ch = (b, none) := by
  cases hg : b.ai_guard rp with
  | true => exact update_ai_move_guard_eq rp b poll ch hg
  | false =>
    obtain ⟨s, hmode⟩ := guard_false_mode_ai rp b hg
    have hrecv := (engine_receiver_ai b s hmode).symm.trans hpend
    exact update_ai_move_recv_pending_eq rp b s c poll ch hg hmode hrecv hpoll

theorem run_ai_updates_stall {Pos : Type} (rp : RulesProvider Pos) (b : ChessBoard Pos)
    (c : Nat) (hpend : b.engine_receiver = some c) :
    ∀ polls : List (TryRecvOutcome × Nat),
      (∀ p ∈ polls, ∀ m, p.1 ≠ TryRecvOutcome.ok m) →
      run_ai_updates rp b polls = (b, []) := by
  intro polls
  induction polls with
  | nil => intro _; rfl
  | cons p rest ih =>
    intro hp
    obtain ⟨poll, ch⟩ := p
    unfold run_ai_updates
    rw [update_ai_move_stall rp b c hpend poll
      (fun m => hp (poll, ch) (List.mem_cons_self _ _) m) ch]
    dsimp only
    rw [ih (fun q hq m => hp q (List.mem_cons_of_mem _ hq) m)]
    rfl

/-- C6: at most one remote-move request is outstanding at a time: a
    FetchPosEval request is pushed only when no reply receiver is stored,
    pushing one stores the fresh receiver, a stored receiver blocks any
    further request, and the stored receiver becomes empty only when a
    reply was successfully received. -/
theorem update_ai_move_at_most_one_request {Pos : Type} (rp : RulesProvider Pos)
    (b : ChessBoard Pos) (poll : TryRecvOutcome) (ch : Nat) :
    ((b.update_ai_move rp poll ch).2.isSome = true → b.engine_receiver = none) ∧
    ((b.update_ai_move rp poll ch).2.isSome = true →
      (b.update_ai_move rp poll ch).1.engine_receiver = some ch) ∧
    (∀ c, b.engine_receiver = some c → (b.update_ai_move rp poll ch).2 = none) ∧
    (∀ c, b.engine_receiver = some c →
      (b.update_ai_move rp poll ch).1.engine_receiver = none →
      ∃ m, poll = TryRecvOutcome.ok m) := by
  cases hg : b.ai_guard rp with
  | true =>
    rw [update_ai_move_guard_eq rp b poll ch hg]
    refine ⟨by simp, by simp, fun c hc => rfl, fun c hc hnone => ?_⟩
    exact Option.noConfusion (hc.symm.trans hnone)
  | false =>
    obtain ⟨s, hmode⟩ := guard_false_mode_ai rp b hg
    cases hrecv : s.engine_move_receiver with
    | some c0 =>
      cases poll with
      | ok m =>
        rw [update_ai_move_recv_ok_eq rp b s c0 m ch hg hmode hrecv]
        exact ⟨by simp, by simp, fun c hc => rfl, fun c hc hnone => ⟨m, rfl⟩⟩
      | failed =>
        rw [update_ai_move_recv_pending_eq rp b s c0 .failed ch hg hmode hrecv
          (fun m h => TryRecvOutcome.noConfusion h)]
        refine ⟨by simp, by simp, fun c hc => rfl, fun c hc hnone => ?_⟩
        exact Option.noConfusion (hc.symm.trans hnone)
      | notReady =>
        rw [update_ai_move_recv_pending_eq rp b s c0 .notReady ch hg hmode hrecv
          (fun m h => TryRecvOutcome.noConfusion h)]
        refine ⟨by simp, by simp, fun c hc => rfl, fun c hc hnone => ?_⟩
        exact Option.noConfusion (hc.symm.trans hnone)
    | none =>
      rw [update_ai_move_idle_eq rp b s poll ch hg hmode hrecv]
      refine ⟨fun _ => (engine_receiver_ai b s hmode).trans hrecv,
        fun _ => engine_receiver_ai _ _ rfl,
        fun c hc => ?_, fun c hc _ => ?_⟩
      · have h1 := ((engine_receiver_ai b s hmode).symm.trans hc)
        rw [hrecv] at h1
        exact Option.noConfusion h1
      · have h1 := ((engine_receiver_ai b s hmode).symm.trans hc)
        rw [hrecv] at h1
        exact Option.noConfusion h1

/-- C6 witness: on the concrete AI board with a pending receiver on channel
    5, a frame whose poll reports a failed reply pushes no request. -/
theorem update_ai_move_at_most_one_request_witness :
    aiPendingBoard.engine_receiver = some 5 ∧
    (aiPendingBoard.update_ai_move toyRules .failed 9).2 = none :=
  ⟨by decide,
    (update_ai_move_at_most_one_request toyRules aiPendingBoard .failed 9).2.2.1 5
      (by decide)⟩

/-- C9: while a pending reply receiver is stored, a frame whose poll is a
    failure (or not yet ready) leaves the whole board unchanged — no move
    is applied, the position stays, the receiver is kept — and pushes no
    request; and over any later frames none of which receives a successful
    reply, no request is ever pushed and the board never changes. -/
theorem update_ai_move_failure_no_retry {Pos : Type} (rp : RulesProvider Pos)
    (b : ChessBoard Pos) (c : Nat) (hpend : b.engine_receiver = some c) (ch : Nat) :
    b.update_ai_move rp .failed ch = (b, none) ∧
    ∀ polls : List (TryRecvOutcome × Nat),
      (∀ p ∈ polls, ∀ m, p.1 ≠ TryRecvOutcome.ok m) →
      run_ai_updates rp b polls = (b, []) :=
  ⟨update_ai_move_stall rp b c hpend .failed (fun m h => TryRecvOutcome.noConfusion h) ch,
   run_ai_updates_stall rp b c hpend⟩

/-- C9 witness: the concrete pending AI board is untouched by a failed poll
    and by a later failed-then-silent frame sequence, with no request sent. -/
theorem update_ai_move_failure_no_retry_witness :
    aiPendingBoard.update_ai_move toyRules .failed 9 = (aiPendingBoard, none) ∧
    run_ai_updates toyRules aiPendingBoard [(.failed, 3), (.notReady, 4)] =
      (aiPendingBoard, []) := by
  have h := update_ai_move_failure_no_retry toyRules aiPendingBoard 5 (by decide) 9
  refine ⟨h.1, h.2 [(.failed, 3), (.notReady, 4)] ?_⟩
  intro p hp m
  fin_cases hp <;> simp

/-- C8: with no receiver stored and the engine to move in a running game,
    update_ai_move pushes a FetchPosEval request carrying the FEN
    serialization of the current position under the legal en-passant
    convention, tagged with the selected engine variant; and the dispatcher
    turns that request into an HTTP POST to the variant game URL whose JSON
    body holds that FEN string under the key fen. -/
theorem update_ai_move_sends_legal_fen {Pos : Type} (rp : RulesProvider Pos)
    (b : ChessBoard Pos) (s : AiGameSettings) (poll : TryRecvOutcome) (ch : Nat)
    (hmode : b.game_mode = .playAgainsAI s)
    (hrecv : s.engine_move_receiver = none)
    (hturn : (rp.turn b.chess == b.player_color) = false)
    (hgoing : b.game_is_going = true) :
    (b.update_ai_move rp poll ch).2 =
      some (.fetchPosEval s.ai_variant (rp.fenFromPosition b.chess .legal) ch) ∧
    ∀ env : HttpEnv,
      (processComm env
          (.fetchPosEval s.ai_variant (rp.fenFromPosition b.chess .legal) ch)).call =
        ⟨.post, s.ai_variant.game_url,
          some [("fen", rp.fenFromPosition b.chess .legal)]⟩ := by
  have hg : b.ai_guard rp = false := by
    unfold ChessBoard.ai_guard
    rw [hmode, hturn, hgoing]
    rfl
  rw [update_ai_move_idle_eq rp b s poll ch hg hmode hrecv]
  exact ⟨rfl, fun env => rfl⟩

/-- C8 witness: on the concrete idle AI board (position 1, black engine to
    move), a frame pushes the FetchPosEval request with FEN string pos1 on
    channel 7, and the dispatcher makes it a POST of body fen = pos1 to the
    variant game URL. -/
theorem update_ai_move_sends_legal_fen_witness :
    (aiIdleBoard.update_ai_move toyRules .notReady 7).2 =
      some (.fetchPosEval variantA "pos1" 7) ∧
    (processComm offlineEnv (.fetchPosEval variantA "pos1" 7)).call =
      ⟨.post, "https://engine.example/game", some [("fen", "pos1")]⟩ := by
  have h := update_ai_move_sends_legal_fen toyRules aiIdleBoard ⟨none, variantA⟩
    .notReady 7 (by decide) (by decide) (by decide) (by decide)
  exact ⟨h.1, h.2 offlineEnv⟩

/-- C7: the request loop serves the queued requests one by one in arrival
    order until the queue closes, performing exactly one HTTP call per
    request and answering on each request own reply channel with the
    decoded result or the error, a per-request failure never stopping the
    service of the later requests. -/
theorem run_request_loop_fifo (env : HttpEnv) (comms : List RequestLoopComm) :
    run_request_loop env comms = comms.map (processComm env) ∧
    (run_request_loop env comms).map LoopEvent.call = comms.map RequestLoopComm.call ∧
    (run_request_loop env comms).map LoopEvent.reply_chan = comms.map RequestLoopComm.chan ∧
    (run_request_loop env comms).length = comms.length := by
  have hmain : run_request_loop env comms = comms.map (processComm env) := by
    induction comms with
    | nil => rfl
    | cons c cs ih =>
      unfold run_request_loop
      rw [ih]
      rfl
  refine ⟨hmain, ?_, ?_, ?_⟩
  · rw [hmain, List.map_map]
    refine List.map_congr_left ?_
    intro c _
    cases c <;> rfl
  · rw [hmain, List.map_map]
    refine List.map_congr_left ?_
    intro c _
    cases c <;> rfl
  · rw [hmain, List.length_map]

end NNChess
